import Mathlib

/-!
Shallow embedding of `src/data_gen/generate_database.py`.

The Python module generates a randomized relational fixture dataset (customers,
loans, lenders, loan statuses, and a customer–loan association table).  All
randomness (`random.randint`, `random.random`, `random.choices`, and the Faker
date helpers, which bottom out in `random.randint` over integer unix
timestamps) is modelled by threading explicit oracle values through the
generators: each oracle value is mapped onto the exact set of outcomes the
corresponding library call can produce, and a call that raises (`ValueError`
from `random.randint(a, b)` with `a > b`) is modelled by `Option.none`.

Datetimes are modelled as integer unix timestamps (seconds since 1970-01-01,
which is what Faker's `date_time_between_dates` reduces every argument to via
`timegm(dt.timetuple())`), dates as integer day counts since 1970-01-01, and
the process-local timezone used by Faker's timestamp-to-date conversion is
taken to be UTC.  Python floats from `random.random()` are abstracted to
rationals in `[0, 1)`, and Python's `round` (banker's rounding) is modelled as
round-half-to-even on rationals.
-/

namespace DataGen

/-- Number of seconds in one civil day (`timedelta(days=1)` in seconds). -/
def secondsPerDay : ℤ := 86400

/-- Models the timestamp-to-date conversion `datetime.fromtimestamp(t, tz).date()`
used by Faker (local timezone taken as UTC): the civil date containing the
instant `t`, as a count of days since 1970-01-01.  This is floor division by
86400 (`ℤ` division by a positive divisor rounds toward negative infinity). -/
def dateOf (t : ℤ) : ℤ := t / secondsPerDay

/-- Models `random.randint(a, b)`: an arbitrary integer of `[a, b]`, obtained
from the oracle value `v` as `a + v % (b - a + 1)` (which ranges over exactly
`[a, b]` as `v` ranges over ℕ); when `a > b` the call raises `ValueError`
(CPython: empty range), modelled as `none`. -/
def randintO (a b : ℤ) (v : ℕ) : Option ℤ :=
  if a ≤ b then some (a + (v : ℤ) % (b - a + 1)) else none

/-- Models a `random.randint(a, b)` call whose bounds satisfy `a ≤ b` by
construction (a constant non-empty range), so that the call never raises:
the same value `a + v % (b - a + 1)` as `randintO`, without the `Option`. -/
def randintT (a b : ℤ) (v : ℕ) : ℤ := a + (v : ℤ) % (b - a + 1)

/-- Models `random.random()`: an arbitrary value of `[0, 1)`, obtained from the
oracle rational `r` as its fractional part. -/
def randomUnit (r : ℚ) : ℚ := Int.fract r

/-- Round half to even (banker's rounding), the rounding mode of Python's
built-in `round`, on rationals. -/
def roundHalfEven (q : ℚ) : ℤ :=
  let f : ℤ := ⌊q⌋
  if q - f < 1 / 2 then f
  else if 1 / 2 < q - f then f + 1
  else if f % 2 = 0 then f else f + 1

/-- Models Python `round(x, nd)` on a nonnegative number abstracted to ℚ. -/
def pyRound (nd : ℕ) (q : ℚ) : ℚ :=
  (roundHalfEven (q * 10 ^ nd) : ℚ) / 10 ^ nd

/-- `DEFAULT_CUSTOMER_NUMBER = 100`. -/
def DEFAULT_CUSTOMER_NUMBER : ℕ := 100

/-- `DEFAULT_LOANS_MAX_NUMBER = 5 * DEFAULT_CUSTOMER_NUMBER`. -/
def DEFAULT_LOANS_MAX_NUMBER : ℕ := 5 * DEFAULT_CUSTOMER_NUMBER

/-- `LOAN_STATUSES = ["GREEN", "YELLOW", "RED"]`. -/
def LOAN_STATUSES : List String := ["GREEN", "YELLOW", "RED"]

/-- Daily record of a loan's info, status, values, etc. (`class LoanInfo`).
`recorded_on` is a datetime (seconds since epoch); the three `*_on` date
fields are day counts since epoch; monetary fields are ℚ. -/
structure LoanInfo where
  loan_id : ℤ
  loan_status_id : ℤ
  lender_id : ℤ
  recorded_on : ℤ
  followup_on : ℤ
  previous_payment_on : ℤ
  next_payment_on : ℤ
  due_interest_amount : ℚ
  due_principal_amount : ℚ
  due_escrow_amount : ℚ
  due_fees_amount : ℚ
  previous_payment_amount : ℚ
  next_payment_amount : ℚ
  credit_limit_amount : ℚ
  number_of_unique_delinquencies : ℤ

/-- Customer Information (`class Customer`). -/
structure Customer where
  customer_id : ℤ
  name : String
  address : String
  ssn : String
  age : ℤ

/-- Lookup for Loan Statuses (`class LoanStatus`). -/
structure LoanStatus where
  loan_status_id : ℤ
  loan_status_value : String

/-- Lookup for Lenders (`class Lender`). -/
structure Lender where
  lender_id : ℤ
  lender_name : String

/-- Lookup for a customer-loan pairing (`class CustomerLoan`). -/
structure CustomerLoan where
  loan_id : ℤ
  customer_id : ℤ

/-- Oracle values consumed by one call of `generate_loan_info_row`, one per
random draw the Python body performs, in source order. -/
structure LoanDraws where
  vRecorded : ℕ
  vNext : ℕ
  vPrevGap : ℕ
  vPrev : ℕ
  vFollowup : ℕ
  vStatus : ℕ
  vLender : ℕ
  expInterest : ℕ
  rInterest : ℚ
  expPrincipal : ℕ
  rPrincipal : ℚ
  expEscrow : ℕ
  rEscrow : ℚ
  expFees : ℕ
  rFees : ℚ
  expPrevPay : ℕ
  rPrevPay : ℚ
  expNextPay : ℕ
  rNextPay : ℚ
  expCredit : ℕ
  rCredit : ℚ
  vDelinq : ℕ

/-- `generate_loan_info_row(loan_id)`.  `now` is the (truncated-to-seconds)
current unix timestamp; `d` supplies the oracle values of the random draws.

Line-by-line model of the source body:
* `recorded = fake.date_time()` draws a unix timestamp in `[0, now]`
  (Faker `unix_time` is `random.randint(0, now)`);
* `next_payment_on = fake.date_between_dates(recorded + timedelta(days=10),
  datetime.now(UTC))` draws a timestamp in `[recorded + 10*86400, now]`
  (raising `ValueError` when that range is empty) and takes its date;
* `previous_payment_on = fake.date_between_dates(recorded -
  timedelta(days=random.randint(7, 70)), recorded)` likewise;
* `followup_on = fake.date_between_dates(previous_payment_on,
  next_payment_on)` draws between the two dates (as midnight timestamps);
* the remaining fields are `random.randint` draws over constant non-empty
  ranges (which never raise, hence `randintT`) and
  `round(10 ** random.randint(lo, hi) * random.random(), nd)` amounts. -/
def generate_loan_info_row (loan_id : ℤ) (now : ℤ) (d : LoanDraws) :
    Option LoanInfo :=
  (randintO 0 now d.vRecorded).bind fun recorded =>
  (randintO (recorded + 10 * secondsPerDay) now d.vNext).bind fun tNext =>
  (randintO (recorded - randintT 7 70 d.vPrevGap * secondsPerDay) recorded d.vPrev).bind
    fun tPrev =>
  (randintO (dateOf tPrev * secondsPerDay) (dateOf tNext * secondsPerDay) d.vFollowup).bind
    fun tFollowup =>
  some
    { loan_id := loan_id
      loan_status_id := randintT 0 2 d.vStatus
      lender_id := randintT 0 5 d.vLender
      recorded_on := recorded
      followup_on := dateOf tFollowup
      previous_payment_on := dateOf tPrev
      next_payment_on := dateOf tNext
      due_interest_amount :=
        pyRound 2 ((10 : ℚ) ^ (randintT 1 5 d.expInterest).toNat * randomUnit d.rInterest)
      due_principal_amount :=
        pyRound 2 ((10 : ℚ) ^ (randintT 1 5 d.expPrincipal).toNat * randomUnit d.rPrincipal)
      due_escrow_amount :=
        pyRound 2 ((10 : ℚ) ^ (randintT 1 5 d.expEscrow).toNat * randomUnit d.rEscrow)
      due_fees_amount :=
        pyRound 2 ((10 : ℚ) ^ (randintT 1 5 d.expFees).toNat * randomUnit d.rFees)
      previous_payment_amount :=
        pyRound 2 ((10 : ℚ) ^ (randintT 1 5 d.expPrevPay).toNat * randomUnit d.rPrevPay)
      next_payment_amount :=
        pyRound 2 ((10 : ℚ) ^ (randintT 2 4 d.expNextPay).toNat * randomUnit d.rNextPay)
      credit_limit_amount :=
        pyRound 0 ((10 : ℚ) ^ (randintT 3 5 d.expCredit).toNat * randomUnit d.rCredit)
      number_of_unique_delinquencies := randintT 0 10 d.vDelinq }

/-- Monadic map over `Option` (the effect of a Python list comprehension whose
body may raise: the first raise aborts the whole comprehension). -/
def mapOpt {α β : Type} (f : α → Option β) : List α → Option (List β)
  | [] => some []
  | a :: as =>
    (f a).bind fun b => (mapOpt f as).bind fun bs => some (b :: bs)

/-- `generate_loan_info_rows(n)`: `[generate_loan_info_row(loan_id=idx) for idx
in range(0, n + 1)]`. -/
def generate_loan_info_rows (n : ℕ) (now : ℤ) (od : ℕ → LoanDraws) :
    Option (List LoanInfo) :=
  mapOpt (fun idx => generate_loan_info_row (Int.ofNat idx) now (od idx))
    (List.range (n + 1))

/-- Oracle values consumed by one call of `generate_customer`. -/
structure CustDraws where
  name : String
  address : String
  ssn : String
  vAge : ℕ

/-- `generate_customer(customer_id)`: Faker strings plus
`age=random.randint(21, 100)` (the latter never raises, so the record is
total; the age oracle value is mapped onto `[21, 100]` exactly as in
`randintO`). -/
def generate_customer (customer_id : ℤ) (d : CustDraws) : Customer :=
  { customer_id := customer_id
    name := d.name
    address := String.replace (d.address) ("\n") (" ")
    ssn := d.ssn
    age := randintT 21 100 d.vAge }

/-- `generate_customers(n)`: `[generate_customer(customer_id=idx) for idx in
range(0, n + 1)]`. -/
def generate_customers (n : ℕ) (od : ℕ → CustDraws) : List Customer :=
  (List.range (n + 1)).map (fun idx => generate_customer (Int.ofNat idx) (od idx))

/-- Models `random.choices([1, 2, 3, 4, 5], weights=[0.7, 0.2, 0.05, 0.04,
0.01])[0]`: an arbitrary element of `[1, 5]` (every weight is positive, so
every element is a possible outcome), obtained from the oracle value `v`. -/
def chooseLoansPerCustomer (v : ℕ) : ℕ := 1 + v % 5

/-- Models `loan_ids.pop(random.randint(0, len(loan_ids) - 1))`: on an empty
pool `random.randint(0, -1)` raises `ValueError` (`none`); otherwise an
arbitrary position `i` of the pool is selected (obtained from the oracle value
`v` as `v % len`), its element returned and removed. -/
def popAt (pool : List ℤ) (v : ℕ) : Option (ℤ × List ℤ) :=
  if pool.isEmpty then none
  else some (pool.getD (v % pool.length) 0, pool.eraseIdx (v % pool.length))

/-- The inner loop of `associate_loans_with_customers`: perform `k` pops from
the pool for customer `cid`, emitting one `CustomerLoan` per pop, in order. -/
def drawK (cid : ℤ) (pick : ℕ → ℕ) : ℕ → List ℤ → Option (List CustomerLoan × List ℤ)
  | 0, pool => some ([], pool)
  | k + 1, pool =>
    (popAt pool (pick k)).bind fun p =>
    (drawK cid pick k p.2).bind fun q =>
    some ({ loan_id := p.1, customer_id := cid } :: q.1, q.2)

/-- The outer loop of `associate_loans_with_customers`: for each remaining
customer (ids `cid, cid+1, ...`, `n` of them, in increasing order), draw a
fan-out count and perform that many pops from the shared pool. -/
def assocAux (fanout : ℕ → ℕ) (pick : ℕ → ℕ → ℕ) :
    ℕ → ℕ → List ℤ → Option (List CustomerLoan × List ℤ)
  | _, 0, pool => some ([], pool)
  | cid, n + 1, pool =>
    (drawK (cid : ℤ) (pick cid) (chooseLoansPerCustomer (fanout cid)) pool).bind fun p =>
    (assocAux fanout pick (cid + 1) n p.2).bind fun q =>
    some (p.1 ++ q.1, q.2)

/-- `associate_loans_with_customers(num_customers, num_loans)`: initialize the
pool `loan_ids = list(range(num_loans))`, then loop `customer_id in
range(num_customers)`, drawing a fan-out and popping that many random loans,
appending one association record per pop. -/
def associate_loans_with_customers (num_customers num_loans : ℕ)
    (fanout : ℕ → ℕ) (pick : ℕ → ℕ → ℕ) : Option (List CustomerLoan) :=
  (assocAux fanout pick 0 num_customers
    ((List.range num_loans).map Int.ofNat)).map Prod.fst

/-- `generate_lenders(num_lenders=5)`: `[Lender(lender_id=idx,
lender_name=fake.company()) for idx in range(num_lenders)]` (exclusive range,
unlike the customer/loan generators). -/
def generate_lenders (num_lenders : ℕ) (od : ℕ → String) : List Lender :=
  (List.range num_lenders).map (fun idx => { lender_id := Int.ofNat idx, lender_name := od idx })

/-- `generate_loan_statuses()`: enumerate `LOAN_STATUSES`. -/
def generate_loan_statuses : List LoanStatus :=
  LOAN_STATUSES.enum.map (fun p => { loan_status_id := (p.1 : ℤ), loan_status_value := p.2 })

/-- The dict of tables returned by `generate_all` (a pandas `DataFrame` is
modelled as the list of records it was built from). -/
structure Payload where
  customers : List Customer
  loan_info : List LoanInfo
  lenders : List Lender
  statuses : List LoanStatus
  loan_customer_lookup : List CustomerLoan

/-- `generate_all()`: build every table with the default counts
(`generate_customers()` with `n = 100`, `generate_loan_info_rows()` with
`n = 500`, `generate_lenders()` with `num_lenders = 5`, the three statuses,
and `associate_loans_with_customers()` with `num_customers = 100`,
`num_loans = 500`).  An exception anywhere aborts the whole call (`none`). -/
def generate_all (now : ℤ) (custD : ℕ → CustDraws) (loanD : ℕ → LoanDraws)
    (lenderD : ℕ → String) (fanout : ℕ → ℕ) (pick : ℕ → ℕ → ℕ) :
    Option Payload :=
  (generate_loan_info_rows DEFAULT_LOANS_MAX_NUMBER now loanD).bind fun loan_info =>
  (associate_loans_with_customers DEFAULT_CUSTOMER_NUMBER DEFAULT_LOANS_MAX_NUMBER
      fanout pick).bind fun loan_customer_list =>
  some
    { customers := generate_customers DEFAULT_CUSTOMER_NUMBER custD
      loan_info := loan_info
      lenders := generate_lenders 5 lenderD
      statuses := generate_loan_statuses
      loan_customer_lookup := loan_customer_list }

/-! ### Basic facts about the randomness models -/

lemma randintT_le_left (a b : ℤ) (v : ℕ) (h : a ≤ b) : a ≤ randintT a b v := by
  have h0 : (0 : ℤ) ≤ (v : ℤ) % (b - a + 1) :=
    Int.emod_nonneg (v : ℤ) (by omega)
  unfold randintT
  omega

lemma randintT_le_right (a b : ℤ) (v : ℕ) (h : a ≤ b) : randintT a b v ≤ b := by
  have h1 : (v : ℤ) % (b - a + 1) < b - a + 1 :=
    Int.emod_lt_of_pos (v : ℤ) (by omega)
  unfold randintT
  omega

lemma randintO_eq_some (a b : ℤ) (v : ℕ) (r : ℤ) (h : randintO a b v = some r) :
    a ≤ r ∧ r ≤ b := by
  unfold randintO at h
  by_cases hab : a ≤ b
  · rw [if_pos hab] at h
    have hr : a + (v : ℤ) % (b - a + 1) = r := by
      exact Option.some.inj h
    have h0 : (0 : ℤ) ≤ (v : ℤ) % (b - a + 1) :=
      Int.emod_nonneg (v : ℤ) (by omega)
    have h1 : (v : ℤ) % (b - a + 1) < b - a + 1 :=
      Int.emod_lt_of_pos (v : ℤ) (by omega)
    omega
  · rw [if_neg hab] at h
    exact absurd h (by simp)

lemma randintO_of_le (a b : ℤ) (v : ℕ) (h : a ≤ b) :
    randintO a b v = some (a + (v : ℤ) % (b - a + 1)) := by
  unfold randintO
  rw [if_pos h]

lemma randomUnit_nonneg (r : ℚ) : 0 ≤ randomUnit r := Int.fract_nonneg r

lemma randomUnit_lt_one (r : ℚ) : randomUnit r < 1 := Int.fract_lt_one r

/-! ### Facts about the timestamp-to-date conversion -/

lemma secondsPerDay_pos : (0 : ℤ) < secondsPerDay := by norm_num [secondsPerDay]

lemma dateOf_mono (a b : ℤ) (h : a ≤ b) : dateOf a ≤ dateOf b :=
  Int.ediv_le_ediv secondsPerDay_pos h

lemma dateOf_mul (d : ℤ) : dateOf (d * secondsPerDay) = d := by
  unfold dateOf
  exact Int.mul_ediv_cancel d (by norm_num [secondsPerDay])

lemma dateOf_add_mul (t k : ℤ) : dateOf (t + k * secondsPerDay) = dateOf t + k := by
  unfold dateOf
  exact Int.add_mul_ediv_right t k (by norm_num [secondsPerDay])

/-! ### Facts about the rounding models -/

lemma roundHalfEven_nonneg (q : ℚ) (h : 0 ≤ q) : 0 ≤ roundHalfEven q := by
  have hf : (0 : ℤ) ≤ ⌊q⌋ := Int.floor_nonneg.mpr h
  unfold roundHalfEven
  dsimp only
  split
  · exact hf
  · split
    · omega
    · split
      · exact hf
      · omega

lemma pyRound_nonneg (nd : ℕ) (q : ℚ) (h : 0 ≤ q) : 0 ≤ pyRound nd q := by
  unfold pyRound
  apply div_nonneg
  · exact_mod_cast roundHalfEven_nonneg (q * 10 ^ nd) (by positivity)
  · positivity

lemma pyRound_two_decimals (q : ℚ) :
    ∃ z : ℤ, pyRound 2 q = (z : ℚ) / 100 := by
  refine ⟨roundHalfEven (q * 10 ^ 2), ?_⟩
  unfold pyRound
  norm_num

lemma pyRound_integral (q : ℚ) : ∃ z : ℤ, pyRound 0 q = (z : ℚ) := by
  refine ⟨roundHalfEven (q * 10 ^ 0), ?_⟩
  unfold pyRound
  norm_num

/-! ### Characterization of a successfully generated LoanInfo row -/

lemma generate_loan_info_row_eq_some (loan_id now : ℤ) (d : LoanDraws) (row : LoanInfo)
    (h : generate_loan_info_row loan_id now d = some row) :
    ∃ recorded tNext tPrev tFollowup : ℤ,
      (0 ≤ recorded ∧ recorded ≤ now) ∧
      (recorded + 10 * secondsPerDay ≤ tNext ∧ tNext ≤ now) ∧
      (recorded - randintT 7 70 d.vPrevGap * secondsPerDay ≤ tPrev ∧ tPrev ≤ recorded) ∧
      (dateOf tPrev * secondsPerDay ≤ tFollowup ∧
        tFollowup ≤ dateOf tNext * secondsPerDay) ∧
      row =
        { loan_id := loan_id
          loan_status_id := randintT 0 2 d.vStatus
          lender_id := randintT 0 5 d.vLender
          recorded_on := recorded
          followup_on := dateOf tFollowup
          previous_payment_on := dateOf tPrev
          next_payment_on := dateOf tNext
          due_interest_amount :=
            pyRound 2 ((10 : ℚ) ^ (randintT 1 5 d.expInterest).toNat * randomUnit d.rInterest)
          due_principal_amount :=
            pyRound 2 ((10 : ℚ) ^ (randintT 1 5 d.expPrincipal).toNat * randomUnit d.rPrincipal)
          due_escrow_amount :=
            pyRound 2 ((10 : ℚ) ^ (randintT 1 5 d.expEscrow).toNat * randomUnit d.rEscrow)
          due_fees_amount :=
            pyRound 2 ((10 : ℚ) ^ (randintT 1 5 d.expFees).toNat * randomUnit d.rFees)
          previous_payment_amount :=
            pyRound 2 ((10 : ℚ) ^ (randintT 1 5 d.expPrevPay).toNat * randomUnit d.rPrevPay)
          next_payment_amount :=
            pyRound 2 ((10 : ℚ) ^ (randintT 2 4 d.expNextPay).toNat * randomUnit d.rNextPay)
          credit_limit_amount :=
            pyRound 0 ((10 : ℚ) ^ (randintT 3 5 d.expCredit).toNat * randomUnit d.rCredit)
          number_of_unique_delinquencies := randintT 0 10 d.vDelinq } := by
  unfold generate_loan_info_row at h
  cases h1 : randintO 0 now d.vRecorded with
  | none => rw [h1] at h; exact absurd h (by simp)
  | some recorded =>
  rw [h1] at h
  rw [Option.some_bind] at h
  cases h2 : randintO (recorded + 10 * secondsPerDay) now d.vNext with
  | none => rw [h2] at h; exact absurd h (by simp)
  | some tNext =>
  rw [h2] at h
  rw [Option.some_bind] at h
  cases h3 : randintO (recorded - randintT 7 70 d.vPrevGap * secondsPerDay) recorded
      d.vPrev with
  | none => rw [h3] at h; exact absurd h (by simp)
  | some tPrev =>
  rw [h3] at h
  rw [Option.some_bind] at h
  cases h4 : randintO (dateOf tPrev * secondsPerDay) (dateOf tNext * secondsPerDay)
      d.vFollowup with
  | none => rw [h4] at h; exact absurd h (by simp)
  | some tFollowup =>
  rw [h4] at h
  rw [Option.some_bind] at h
  refine ⟨recorded, tNext, tPrev, tFollowup, ?_, ?_, ?_, ?_, ?_⟩
  · exact randintO_eq_some _ _ _ _ h1
  · exact randintO_eq_some _ _ _ _ h2
  · exact randintO_eq_some _ _ _ _ h3
  · exact randintO_eq_some _ _ _ _ h4
  · exact (Option.some.inj h).symm

/-! ### Concrete inputs used to witness the theorems -/

/-- All-zero oracle draws for one LoanInfo row. -/
def zeroLoanDraws : LoanDraws :=
  ⟨0, 0, 0, 0, 0, 0, 0, 0, 0, 0, 0, 0, 0, 0, 0, 0, 0, 0, 0, 0, 0, 0⟩

/-- A fixed current time: the unix timestamp of 2025-10-12 00:00:00 UTC. -/
def bigNow : ℤ := 1760227200

/-- The row generated from the all-zero draws at `bigNow`. -/
def theRow : LoanInfo := (generate_loan_info_row 0 bigNow zeroLoanDraws).get (by decide)

/-- Draws whose `previous_payment_on` value lands exactly on `recorded`
(the top of its range): the drawn timestamp is `recorded - 604800 + (604800 %
604801) = recorded`. -/
def cexDraws : LoanDraws := { zeroLoanDraws with vPrev := 604800 }

/-- The row generated from `cexDraws` at `bigNow`. -/
def cexRow : LoanInfo := (generate_loan_info_row 0 bigNow cexDraws).get (by decide)

/-- Draws whose `recorded` timestamp lands exactly on the current time
(the top of the `fake.date_time()` range `[0, now]`). -/
def lateDraws : LoanDraws := { zeroLoanDraws with vRecorded := bigNow.toNat }

/-! ### Claim C1 -/

/-- C1: for every row produced by `generate_loan_info_row` (for any
`loan_id`), the generated dates satisfy `previous_payment_on ≤ followup_on ≤
next_payment_on`. -/
theorem loan_row_date_order (loan_id now : ℤ) (d : LoanDraws) (row : LoanInfo)
    (h : generate_loan_info_row loan_id now d = some row) :
    row.previous_payment_on ≤ row.followup_on ∧
      row.followup_on ≤ row.next_payment_on := by
  obtain ⟨recorded, tNext, tPrev, tFollowup, h1, h2, h3, h4, hrow⟩ :=
    generate_loan_info_row_eq_some loan_id now d row h
  subst hrow
  constructor
  · have h5 := dateOf_mono (dateOf tPrev * secondsPerDay) tFollowup h4.1
    rw [dateOf_mul] at h5
    exact h5
  · have h5 := dateOf_mono tFollowup (dateOf tNext * secondsPerDay) h4.2
    rw [dateOf_mul] at h5
    exact h5

/-- Witness for C1: the theorem applied to the row generated from the
all-zero draws at `bigNow`. -/
theorem loan_row_date_order_witness :
    generate_loan_info_row 0 bigNow zeroLoanDraws = some theRow ∧
      theRow.previous_payment_on ≤ theRow.followup_on ∧
      theRow.followup_on ≤ theRow.next_payment_on :=
  ⟨(Option.some_get (by decide)).symm,
    loan_row_date_order 0 bigNow zeroLoanDraws theRow (Option.some_get (by decide)).symm⟩

/-! ### Claim C2 -/

/-- C2 counterexample: the claim says `previous_payment_on` precedes
`recorded_on` by at least 7 days, but the drawn date can be as late as
`recorded_on` itself ( `fake.date_between_dates(recorded - timedelta(days=gap),
recorded)` includes its upper endpoint): at `cexDraws` the gap is 0 days. -/
theorem loan_row_prev_gap_cex :
    generate_loan_info_row 0 bigNow cexDraws = some cexRow ∧
      ¬ (7 ≤ dateOf cexRow.recorded_on - cexRow.previous_payment_on) :=
  ⟨(Option.some_get (by decide)).symm, by decide⟩

/-- C2 amended: for every row produced by `generate_loan_info_row`,
`previous_payment_on` precedes the date of `recorded_on` by at most 70 days
and never follows it (the 7–70 day random offset only sets the bottom of the
draw range; the drawn date can coincide with `recorded_on`). -/
theorem loan_row_prev_within_70 (loan_id now : ℤ) (d : LoanDraws) (row : LoanInfo)
    (h : generate_loan_info_row loan_id now d = some row) :
    dateOf row.recorded_on - 70 ≤ row.previous_payment_on ∧
      row.previous_payment_on ≤ dateOf row.recorded_on := by
  obtain ⟨recorded, tNext, tPrev, tFollowup, h1, h2, h3, h4, hrow⟩ :=
    generate_loan_info_row_eq_some loan_id now d row h
  subst hrow
  have hg1 : 7 ≤ randintT 7 70 d.vPrevGap := randintT_le_left 7 70 _ (by norm_num)
  have hg2 : randintT 7 70 d.vPrevGap ≤ 70 := randintT_le_right 7 70 _ (by norm_num)
  constructor
  · have h5 : recorded + (-(randintT 7 70 d.vPrevGap)) * secondsPerDay ≤ tPrev := by
      have h6 := h3.1
      have h7 : recorded + (-(randintT 7 70 d.vPrevGap)) * secondsPerDay =
          recorded - randintT 7 70 d.vPrevGap * secondsPerDay := by ring
      omega
    have h8 := dateOf_mono _ _ h5
    rw [dateOf_add_mul] at h8
    have h9 : dateOf recorded - 70 ≤ dateOf recorded + (-(randintT 7 70 d.vPrevGap)) := by
      omega
    exact le_trans h9 h8
  · exact dateOf_mono _ _ h3.2

/-- Witness for the amended C2: the theorem applied to the row generated
from the all-zero draws at `bigNow`. -/
theorem loan_row_prev_within_70_witness :
    generate_loan_info_row 0 bigNow zeroLoanDraws = some theRow ∧
      dateOf theRow.recorded_on - 70 ≤ theRow.previous_payment_on ∧
      theRow.previous_payment_on ≤ dateOf theRow.recorded_on :=
  ⟨(Option.some_get (by decide)).symm,
    loan_row_prev_within_70 0 bigNow zeroLoanDraws theRow
      (Option.some_get (by decide)).symm⟩

/-! ### Claim C3 -/

/-- C3: the claim says `generate_loan_info_row` never fails, but the code can
raise.  `fake.date_time()` draws `recorded` anywhere in `[0, now]`; when the
draw lands within 10 days of the current time (here: exactly on it), the
subsequent `fake.date_between_dates(recorded + timedelta(days=10), now)` calls
`random.randint` on an empty range and raises `ValueError`, aborting the call
(modelled as `none`). -/
theorem loan_row_can_fail : generate_loan_info_row 0 bigNow lateDraws = none := rfl

/-! ### Claim C8 -/

lemma amount_base_nonneg (e : ℕ) (r : ℚ) : 0 ≤ (10 : ℚ) ^ e * randomUnit r :=
  mul_nonneg (by positivity) (randomUnit_nonneg r)

/-- C8: for every row produced by `generate_loan_info_row`, all seven monetary
amounts are nonnegative; the six `due_* / *_payment_amount` fields are rounded
to 2 decimal places (an integer number of hundredths), `credit_limit_amount`
is integral-valued (rounded to 0 decimals), and
`number_of_unique_delinquencies` is an integer in `[0, 10]`. -/
theorem loan_row_amounts (loan_id now : ℤ) (d : LoanDraws) (row : LoanInfo)
    (h : generate_loan_info_row loan_id now d = some row) :
    (0 ≤ row.due_interest_amount ∧ ∃ z : ℤ, row.due_interest_amount = (z : ℚ) / 100) ∧
    (0 ≤ row.due_principal_amount ∧ ∃ z : ℤ, row.due_principal_amount = (z : ℚ) / 100) ∧
    (0 ≤ row.due_escrow_amount ∧ ∃ z : ℤ, row.due_escrow_amount = (z : ℚ) / 100) ∧
    (0 ≤ row.due_fees_amount ∧ ∃ z : ℤ, row.due_fees_amount = (z : ℚ) / 100) ∧
    (0 ≤ row.previous_payment_amount ∧
      ∃ z : ℤ, row.previous_payment_amount = (z : ℚ) / 100) ∧
    (0 ≤ row.next_payment_amount ∧ ∃ z : ℤ, row.next_payment_amount = (z : ℚ) / 100) ∧
    (0 ≤ row.credit_limit_amount ∧ ∃ z : ℤ, row.credit_limit_amount = (z : ℚ)) ∧
    (0 ≤ row.number_of_unique_delinquencies ∧
      row.number_of_unique_delinquencies ≤ 10) := by
  obtain ⟨recorded, tNext, tPrev, tFollowup, h1, h2, h3, h4, hrow⟩ :=
    generate_loan_info_row_eq_some loan_id now d row h
  subst hrow
  refine ⟨⟨?_, ?_⟩, ⟨?_, ?_⟩, ⟨?_, ?_⟩, ⟨?_, ?_⟩, ⟨?_, ?_⟩, ⟨?_, ?_⟩, ⟨?_, ?_⟩, ?_, ?_⟩
  · exact pyRound_nonneg 2 _ (amount_base_nonneg _ _)
  · exact pyRound_two_decimals _
  · exact pyRound_nonneg 2 _ (amount_base_nonneg _ _)
  · exact pyRound_two_decimals _
  · exact pyRound_nonneg 2 _ (amount_base_nonneg _ _)
  · exact pyRound_two_decimals _
  · exact pyRound_nonneg 2 _ (amount_base_nonneg _ _)
  · exact pyRound_two_decimals _
  · exact pyRound_nonneg 2 _ (amount_base_nonneg _ _)
  · exact pyRound_two_decimals _
  · exact pyRound_nonneg 2 _ (amount_base_nonneg _ _)
  · exact pyRound_two_decimals _
  · exact pyRound_nonneg 0 _ (amount_base_nonneg _ _)
  · exact pyRound_integral _
  · exact randintT_le_left 0 10 _ (by norm_num)
  · exact randintT_le_right 0 10 _ (by norm_num)

/-- Witness for C8: the theorem applied to the row generated from the
all-zero draws at `bigNow`. -/
theorem loan_row_amounts_witness :
    generate_loan_info_row 0 bigNow zeroLoanDraws = some theRow ∧
      (0 ≤ theRow.due_interest_amount ∧
        ∃ z : ℤ, theRow.due_interest_amount = (z : ℚ) / 100) ∧
      (0 ≤ theRow.credit_limit_amount ∧ ∃ z : ℤ, theRow.credit_limit_amount = (z : ℚ)) ∧
      0 ≤ theRow.number_of_unique_delinquencies ∧
      theRow.number_of_unique_delinquencies ≤ 10 := by
  have hsome : generate_loan_info_row 0 bigNow zeroLoanDraws = some theRow :=
    (Option.some_get (by decide)).symm
  have h5 := loan_row_amounts 0 bigNow zeroLoanDraws theRow hsome
  exact ⟨hsome, h5.1, h5.2.2.2.2.2.2.1, h5.2.2.2.2.2.2.2⟩

/-! ### Facts about mapOpt and the batch generators -/

lemma mapOpt_length {α β : Type} (f : α → Option β) (l : List α) (bs : List β)
    (h : mapOpt f l = some bs) : bs.length = l.length := by
  induction l generalizing bs with
  | nil =>
    unfold mapOpt at h
    simpa using (Option.some.inj h).symm ▸ rfl
  | cons a as ih =>
    unfold mapOpt at h
    cases hfa : f a with
    | none => rw [hfa] at h; exact absurd h (by simp)
    | some b =>
      rw [hfa, Option.some_bind] at h
      cases hrest : mapOpt f as with
      | none => rw [hrest] at h; exact absurd h (by simp)
      | some bs2 =>
        rw [hrest, Option.some_bind] at h
        have h2 := (Option.some.inj h).symm
        subst h2
        simpa using ih bs2 hrest

lemma mapOpt_map_proj {α β γ : Type} (f : α → Option β) (proj : β → γ) (g : α → γ)
    (hfg : ∀ a b, f a = some b → proj b = g a) (l : List α) (bs : List β)
    (h : mapOpt f l = some bs) : bs.map proj = l.map g := by
  induction l generalizing bs with
  | nil =>
    unfold mapOpt at h
    have h2 := (Option.some.inj h).symm
    subst h2
    rfl
  | cons a as ih =>
    unfold mapOpt at h
    cases hfa : f a with
    | none => rw [hfa] at h; exact absurd h (by simp)
    | some b =>
      rw [hfa, Option.some_bind] at h
      cases hrest : mapOpt f as with
      | none => rw [hrest] at h; exact absurd h (by simp)
      | some bs2 =>
        rw [hrest, Option.some_bind] at h
        have h2 := (Option.some.inj h).symm
        subst h2
        simp only [List.map_cons]
        rw [hfg a b hfa, ih bs2 hrest]

lemma loan_row_loan_id (loan_id now : ℤ) (d : LoanDraws) (row : LoanInfo)
    (h : generate_loan_info_row loan_id now d = some row) : row.loan_id = loan_id := by
  obtain ⟨recorded, tNext, tPrev, tFollowup, h1, h2, h3, h4, hrow⟩ :=
    generate_loan_info_row_eq_some loan_id now d row h
  subst hrow
  rfl

lemma generate_loan_info_rows_spec (n : ℕ) (now : ℤ) (od : ℕ → LoanDraws)
    (rows : List LoanInfo) (h : generate_loan_info_rows n now od = some rows) :
    rows.length = n + 1 ∧
      rows.map LoanInfo.loan_id = (List.range (n + 1)).map Int.ofNat := by
  constructor
  · have h2 := mapOpt_length _ _ _ h
    simpa using h2
  · exact mapOpt_map_proj _ _ _
      (fun a b hb => loan_row_loan_id (Int.ofNat a) now (od a) b hb) _ _ h

lemma generate_customers_spec (n : ℕ) (od : ℕ → CustDraws) :
    (generate_customers n od).length = n + 1 ∧
      (generate_customers n od).map Customer.customer_id =
        (List.range (n + 1)).map Int.ofNat := by
  unfold generate_customers
  constructor
  · simp
  · rw [List.map_map]
    rfl

/-! ### Claim C9 -/

lemma generate_customer_age (cid : ℤ) (d : CustDraws) :
    21 ≤ (generate_customer cid d).age ∧ (generate_customer cid d).age ≤ 100 := by
  unfold generate_customer
  exact ⟨randintT_le_left 21 100 d.vAge (by norm_num),
    randintT_le_right 21 100 d.vAge (by norm_num)⟩

/-- C9: every customer record produced by `generate_customer`, and hence every
row of `generate_customers`, has `21 ≤ age ≤ 100`. -/
theorem customer_age_range (cid : ℤ) (d : CustDraws) (n : ℕ) (od : ℕ → CustDraws)
    (c : Customer) (hc : c ∈ generate_customers n od) :
    (21 ≤ (generate_customer cid d).age ∧ (generate_customer cid d).age ≤ 100) ∧
      21 ≤ c.age ∧ c.age ≤ 100 := by
  refine ⟨generate_customer_age cid d, ?_⟩
  unfold generate_customers at hc
  obtain ⟨i, hi, rfl⟩ := List.mem_map.mp hc
  exact generate_customer_age (Int.ofNat i) (od i)

/-- All-zero customer draws used by witnesses. -/
def zeroCustDraws : CustDraws := ⟨"n", "a", "s", 0⟩

/-- Witness for C9: the theorem applied to the customer generated from the
all-zero customer draws, a member of the one-customer batch. -/
theorem customer_age_range_witness :
    generate_customer 0 zeroCustDraws ∈ generate_customers 0 (fun _ => zeroCustDraws) ∧
      (21 ≤ (generate_customer 0 zeroCustDraws).age ∧
        (generate_customer 0 zeroCustDraws).age ≤ 100) ∧
      21 ≤ (generate_customer 0 zeroCustDraws).age ∧
      (generate_customer 0 zeroCustDraws).age ≤ 100 := by
  have hmem : generate_customer 0 zeroCustDraws ∈
      generate_customers 0 (fun _ => zeroCustDraws) := by
    unfold generate_customers
    simp
  exact ⟨hmem,
    customer_age_range 0 zeroCustDraws 0 (fun _ => zeroCustDraws)
      (generate_customer 0 zeroCustDraws) hmem⟩

/-! ### Facts about the association builder -/

lemma chooseLoansPerCustomer_ge_one (v : ℕ) : 1 ≤ chooseLoansPerCustomer v := by
  unfold chooseLoansPerCustomer
  omega

lemma chooseLoansPerCustomer_le_five (v : ℕ) : chooseLoansPerCustomer v ≤ 5 := by
  unfold chooseLoansPerCustomer
  omega

lemma getD_cons_eraseIdx_perm (l : List ℤ) (i : ℕ) (hi : i < l.length) :
    List.Perm (l.getD i 0 :: l.eraseIdx i) l := by
  induction l generalizing i with
  | nil => simp at hi
  | cons a t ih =>
    cases i with
    | zero => simp
    | succ j =>
      have hj : j < t.length := by simpa using hi
      exact (List.Perm.swap a (t.getD j 0) (t.eraseIdx j)).trans
        (List.Perm.cons a (ih j hj))

lemma popAt_eq_some (pool : List ℤ) (v : ℕ) (x : ℤ) (rest : List ℤ)
    (h : popAt pool v = some (x, rest)) : List.Perm (x :: rest) pool := by
  unfold popAt at h
  by_cases hp : pool.isEmpty
  · rw [if_pos hp] at h
    exact absurd h (by simp)
  · rw [if_neg hp] at h
    have hne : pool ≠ [] := by
      intro hnil
      exact hp (by simp [hnil])
    have hlt : v % pool.length < pool.length :=
      Nat.mod_lt _ (List.length_pos.mpr hne)
    have h2 := Option.some.inj h
    injection h2 with hx hrest
    rw [← hx, ← hrest]
    exact getD_cons_eraseIdx_perm pool _ hlt

lemma popAt_ne_none (pool : List ℤ) (v : ℕ) (hne : pool ≠ []) :
    (popAt pool v).isSome := by
  unfold popAt
  rw [if_neg (by simp [hne])]
  rfl

lemma drawK_eq_some (cid : ℤ) (pick : ℕ → ℕ) :
    ∀ (k : ℕ) (pool : List ℤ) (blk : List CustomerLoan) (rest : List ℤ),
    drawK cid pick k pool = some (blk, rest) →
    List.Perm (blk.map CustomerLoan.loan_id ++ rest) pool ∧
      blk.length = k ∧ ∀ r ∈ blk, r.customer_id = cid := by
  intro k
  induction k with
  | zero =>
    intro pool blk rest h
    unfold drawK at h
    have h2 := Option.some.inj h
    injection h2 with hb hr
    rw [← hb, ← hr]
    exact ⟨by simp [List.Perm.refl], rfl, by intro r hr2; simp at hr2⟩
  | succ k ih =>
    intro pool blk rest h
    unfold drawK at h
    cases hpop : popAt pool (pick k) with
    | none => rw [hpop] at h; exact absurd h (by simp)
    | some p =>
      rw [hpop, Option.some_bind] at h
      cases hdk : drawK cid pick k p.2 with
      | none => rw [hdk] at h; exact absurd h (by simp)
      | some q =>
        rw [hdk, Option.some_bind] at h
        have h2 := Option.some.inj h
        injection h2 with hb hr
        rw [← hb, ← hr]
        obtain ⟨hperm, hlen, hcid⟩ := ih p.2 q.1 q.2 (by rw [hdk])
        have hpp : List.Perm (p.1 :: p.2) pool :=
          popAt_eq_some pool (pick k) p.1 p.2 (by rw [hpop])
        refine ⟨?_, ?_, ?_⟩
        · exact (List.Perm.cons p.1 hperm).trans hpp
        · simp [hlen]
        · intro r hr2
          rcases List.mem_cons.mp hr2 with h3 | h3
          · rw [h3]
          · exact hcid r h3

lemma drawK_isSome (cid : ℤ) (pick : ℕ → ℕ) :
    ∀ (k : ℕ) (pool : List ℤ), k ≤ pool.length → (drawK cid pick k pool).isSome := by
  intro k
  induction k with
  | zero =>
    intro pool hk
    unfold drawK
    rfl
  | succ k ih =>
    intro pool hk
    have hne : pool ≠ [] := by
      intro hnil
      rw [hnil] at hk
      simp at hk
    unfold drawK
    cases hpop : popAt pool (pick k) with
    | none =>
      have h2 := popAt_ne_none pool (pick k) hne
      rw [hpop] at h2
      exact absurd h2 (by simp)
    | some p =>
      rw [Option.some_bind]
      have hlen : p.2.length + 1 = pool.length := by
        have h3 := (popAt_eq_some pool (pick k) p.1 p.2 (by rw [hpop])).length_eq
        simpa using h3
      have h4 := ih p.2 (by omega)
      cases hdk : drawK cid pick k p.2 with
      | none => rw [hdk] at h4; exact absurd h4 (by simp)
      | some q => rw [Option.some_bind]; rfl

lemma drawK_eq_none (cid : ℤ) (pick : ℕ → ℕ) :
    ∀ (k : ℕ) (pool : List ℤ), pool.length < k → drawK cid pick k pool = none := by
  intro k
  induction k with
  | zero =>
    intro pool hk
    simp at hk
  | succ k ih =>
    intro pool hk
    unfold drawK
    cases hpop : popAt pool (pick k) with
    | none => rfl
    | some p =>
      rw [Option.some_bind]
      have hlen : p.2.length + 1 = pool.length := by
        have h3 := (popAt_eq_some pool (pick k) p.1 p.2 (by rw [hpop])).length_eq
        simpa using h3
      rw [ih p.2 (by omega)]
      rfl

/-- Splitting the total demand of `n + 1` consecutive customers into the first
customer's fan-out plus the demand of the rest. -/
lemma demand_succ (g : ℕ → ℕ) (cid n : ℕ) :
    ((List.range (n + 1)).map (fun i => g (cid + i))).sum =
      g cid + ((List.range n).map (fun i => g (cid + 1 + i))).sum := by
  rw [List.range_succ_eq_map, List.map_cons, List.map_map, List.sum_cons]
  have h1 : ((fun i => g (cid + i)) ∘ Nat.succ) = fun i => g (cid + 1 + i) := by
    funext i
    simp only [Function.comp]
    congr 1
    omega
  rw [h1, Nat.add_zero]

lemma pairwise_of_const_cid (l : List CustomerLoan) (c : ℤ)
    (h : ∀ r ∈ l, r.customer_id = c) :
    List.Pairwise (fun a b => a.customer_id ≤ b.customer_id) l := by
  induction l with
  | nil => exact List.Pairwise.nil
  | cons a t ih =>
    refine List.Pairwise.cons ?_ (ih (fun r hr => h r (List.mem_cons.mpr (Or.inr hr))))
    intro b hb
    rw [h a (List.mem_cons.mpr (Or.inl rfl)), h b (List.mem_cons.mpr (Or.inr hb))]

lemma demand_succ_choose (fanout : ℕ → ℕ) (cid n : ℕ) :
    ((List.range (n + 1)).map (fun i => chooseLoansPerCustomer (fanout (cid + i)))).sum =
      chooseLoansPerCustomer (fanout cid) +
        ((List.range n).map (fun i => chooseLoansPerCustomer (fanout (cid + 1 + i)))).sum :=
  demand_succ (fun c => chooseLoansPerCustomer (fanout c)) cid n

/-- Master invariant of the association loop: on success, the emitted loan ids
together with the remaining pool are a permutation of the starting pool; the
number of records is the total demanded fan-out; customer ids are the `n`
consecutive ids starting at `cid`, in nondecreasing order, each contributing a
consecutive block of 1 to 5 records. -/
lemma assocAux_eq_some (fanout : ℕ → ℕ) (pick : ℕ → ℕ → ℕ) :
    ∀ (n cid : ℕ) (pool : List ℤ) (l : List CustomerLoan) (rest : List ℤ),
    assocAux fanout pick cid n pool = some (l, rest) →
    List.Perm (l.map CustomerLoan.loan_id ++ rest) pool ∧
      l.length =
        ((List.range n).map (fun i => chooseLoansPerCustomer (fanout (cid + i)))).sum ∧
      (∀ r ∈ l, (cid : ℤ) ≤ r.customer_id ∧ r.customer_id < (cid : ℤ) + (n : ℤ)) ∧
      List.Pairwise (fun a b => a.customer_id ≤ b.customer_id) l ∧
      ∃ blocks : List (List CustomerLoan), l = blocks.flatten ∧ blocks.length = n ∧
        ∀ j, j < n → 1 ≤ (blocks.getD j []).length ∧ (blocks.getD j []).length ≤ 5 ∧
          ∀ r ∈ blocks.getD j [], r.customer_id = ((cid + j : ℕ) : ℤ) := by
  intro n
  induction n with
  | zero =>
    intro cid pool l rest h
    unfold assocAux at h
    have h2 := Option.some.inj h
    injection h2 with hl hr
    rw [← hl, ← hr]
    refine ⟨by simp, by simp, by simp, List.Pairwise.nil,
      [], rfl, rfl, ?_⟩
    intro j hj
    exact absurd hj (by omega)
  | succ n ih =>
    intro cid pool l rest h
    unfold assocAux at h
    cases hdk : drawK (cid : ℤ) (pick cid) (chooseLoansPerCustomer (fanout cid)) pool with
    | none => rw [hdk] at h; exact absurd h (by simp)
    | some p =>
      rw [hdk, Option.some_bind] at h
      cases has : assocAux fanout pick (cid + 1) n p.2 with
      | none => rw [has] at h; exact absurd h (by simp)
      | some q =>
        rw [has, Option.some_bind] at h
        have h2 := Option.some.inj h
        injection h2 with hl hr
        rw [← hl, ← hr]
        obtain ⟨permP, hlenP, hcidP⟩ :=
          drawK_eq_some (cid : ℤ) (pick cid) (chooseLoansPerCustomer (fanout cid)) pool
            p.1 p.2 (by rw [hdk])
        obtain ⟨permQ, hlenQ, hboundQ, hpairQ, blocksQ, hflatQ, hblenQ, hbspecQ⟩ :=
          ih (cid + 1) p.2 q.1 q.2 (by rw [has])
        refine ⟨?_, ?_, ?_, ?_, ?_⟩
        · rw [List.map_append, List.append_assoc]
          exact (List.Perm.append_left (p.1.map CustomerLoan.loan_id) permQ).trans permP
        · rw [List.length_append, hlenP, hlenQ]
          exact (demand_succ_choose fanout cid n).symm
        · intro r hr
          rcases List.mem_append.mp hr with h3 | h3
          · rw [hcidP r h3]
            refine ⟨le_refl _, ?_⟩
            push_cast
            omega
          · have h4 := hboundQ r h3
            push_cast at h4 ⊢
            omega
        · rw [List.pairwise_append]
          refine ⟨pairwise_of_const_cid p.1 (cid : ℤ) hcidP, hpairQ, ?_⟩
          intro a ha b hb
          rw [hcidP a ha]
          have h4 := (hboundQ b hb).1
          push_cast at h4 ⊢
          omega
        · refine ⟨p.1 :: blocksQ, ?_, ?_, ?_⟩
          · rw [List.flatten_cons, hflatQ]
          · simp [hblenQ]
          · intro j hj
            cases j with
            | zero =>
              have hgd : (p.1 :: blocksQ).getD 0 [] = p.1 := rfl
              rw [hgd]
              refine ⟨?_, ?_, ?_⟩
              · rw [hlenP]
                exact chooseLoansPerCustomer_ge_one _
              · rw [hlenP]
                exact chooseLoansPerCustomer_le_five _
              · intro r hr2
                rw [hcidP r hr2]
                simp
            | succ j =>
              have hj2 : j < n := by omega
              obtain ⟨hb1, hb2, hb3⟩ := hbspecQ j hj2
              have hgd : (p.1 :: blocksQ).getD (j + 1) [] = blocksQ.getD j [] := rfl
              rw [hgd]
              refine ⟨hb1, hb2, ?_⟩
              intro r hr2
              rw [hb3 r hr2]
              congr 1
              omega

/-- On exhaustion the association loop raises: if the pool is smaller than the
total demanded fan-out, some pop hits the empty pool and the whole loop
returns `none`. -/
lemma assocAux_eq_none (fanout : ℕ → ℕ) (pick : ℕ → ℕ → ℕ) :
    ∀ (n cid : ℕ) (pool : List ℤ),
    pool.length <
        ((List.range n).map (fun i => chooseLoansPerCustomer (fanout (cid + i)))).sum →
    assocAux fanout pick cid n pool = none := by
  intro n
  induction n with
  | zero =>
    intro cid pool h
    simp at h
  | succ n ih =>
    intro cid pool h
    rw [demand_succ_choose fanout cid n] at h
    unfold assocAux
    by_cases hk : pool.length < chooseLoansPerCustomer (fanout cid)
    · rw [drawK_eq_none (cid : ℤ) (pick cid) _ pool hk]
      rfl
    · cases hdk : drawK (cid : ℤ) (pick cid) (chooseLoansPerCustomer (fanout cid)) pool with
      | none => rfl
      | some p =>
        rw [Option.some_bind]
        obtain ⟨permP, hlenP, hcidP⟩ :=
          drawK_eq_some (cid : ℤ) (pick cid) (chooseLoansPerCustomer (fanout cid)) pool
            p.1 p.2 (by rw [hdk])
        have hlen : p.1.length + p.2.length = pool.length := by
          have h3 := permP.length_eq
          simpa using h3
        rw [ih (cid + 1) p.2 (by omega)]
        rfl

lemma associate_eq_some (C L : ℕ) (fanout : ℕ → ℕ) (pick : ℕ → ℕ → ℕ)
    (l : List CustomerLoan)
    (h : associate_loans_with_customers C L fanout pick = some l) :
    ∃ rest : List ℤ,
      assocAux fanout pick 0 C ((List.range L).map Int.ofNat) = some (l, rest) := by
  unfold associate_loans_with_customers at h
  cases ha : assocAux fanout pick 0 C ((List.range L).map Int.ofNat) with
  | none => rw [ha] at h; exact absurd h (by simp)
  | some p =>
    rw [ha] at h
    have h2 : p.1 = l := by simpa using h
    refine ⟨p.2, ?_⟩
    rw [← h2]

lemma rangePool_nodup (L : ℕ) : ((List.range L).map Int.ofNat).Nodup :=
  List.Nodup.map (fun _ _ hab => Int.ofNat.inj hab) (List.nodup_range L)

lemma mem_rangePool (L : ℕ) (x : ℤ) (hx : x ∈ (List.range L).map Int.ofNat) :
    0 ≤ x ∧ x < (L : ℤ) := by
  obtain ⟨i, hi, rfl⟩ := List.mem_map.mp hx
  rw [List.mem_range] at hi
  simp only [Int.ofNat_eq_natCast]
  omega

/-! ### Claim C4 -/

/-- C4: if the total requested fan-out exceeds `num_loans`, the association
builder hits `loan_ids.pop(random.randint(0, -1))` on an empty pool, which
raises `ValueError`; the call aborts (`none`) instead of returning a partial
association list. -/
theorem assoc_exhaustion_raises (C L : ℕ) (fanout : ℕ → ℕ) (pick : ℕ → ℕ → ℕ)
    (h : L < ((List.range C).map (fun i => chooseLoansPerCustomer (fanout i))).sum) :
    associate_loans_with_customers C L fanout pick = none := by
  unfold associate_loans_with_customers
  have h2 : ((List.range L).map Int.ofNat).length <
      ((List.range C).map (fun i => chooseLoansPerCustomer (fanout (0 + i)))).sum := by
    simpa using h
  rw [assocAux_eq_none fanout pick C 0 _ h2]
  rfl

/-! ### Claim C5 -/

/-- C5: whenever the association builder returns normally, the emitted
`loan_id`s are pairwise distinct, and the number of emitted records equals the
total drawn fan-out and is at most the pool size `L`. -/
theorem assoc_unique_loans (C L : ℕ) (fanout : ℕ → ℕ) (pick : ℕ → ℕ → ℕ)
    (l : List CustomerLoan)
    (h : associate_loans_with_customers C L fanout pick = some l) :
    (l.map CustomerLoan.loan_id).Nodup ∧
      l.length =
        ((List.range C).map (fun i => chooseLoansPerCustomer (fanout i))).sum ∧
      l.length ≤ L := by
  obtain ⟨rest, ha⟩ := associate_eq_some C L fanout pick l h
  obtain ⟨hperm, hlen, _, _, _⟩ := assocAux_eq_some fanout pick C 0 _ l rest ha
  have hnodup : (l.map CustomerLoan.loan_id ++ rest).Nodup :=
    hperm.symm.nodup (rangePool_nodup L)
  refine ⟨List.Nodup.of_append_left hnodup, ?_, ?_⟩
  · simpa using hlen
  · have h3 := hperm.length_eq
    simp only [List.length_append, List.length_map, List.length_range] at h3
    omega

/-! ### Claim C10 -/

/-- C10: whenever the association builder returns normally, its output is
grouped and ordered by customer: customer ids are nondecreasing, each customer
id in `0..num_customers-1` contributes a consecutive block of 1 to 5 records,
and every emitted loan id lies in `0..num_loans-1`. -/
theorem assoc_grouped_ordered (C L : ℕ) (fanout : ℕ → ℕ) (pick : ℕ → ℕ → ℕ)
    (l : List CustomerLoan)
    (h : associate_loans_with_customers C L fanout pick = some l) :
    List.Pairwise (fun a b => a.customer_id ≤ b.customer_id) l ∧
      (∃ blocks : List (List CustomerLoan), l = blocks.flatten ∧ blocks.length = C ∧
        ∀ j, j < C → 1 ≤ (blocks.getD j []).length ∧ (blocks.getD j []).length ≤ 5 ∧
          ∀ r ∈ blocks.getD j [], r.customer_id = (j : ℤ)) ∧
      ∀ r ∈ l, 0 ≤ r.loan_id ∧ r.loan_id < (L : ℤ) := by
  obtain ⟨rest, ha⟩ := associate_eq_some C L fanout pick l h
  obtain ⟨hperm, _, _, hpair, blocks, hflat, hblen, hbspec⟩ :=
    assocAux_eq_some fanout pick C 0 _ l rest ha
  refine ⟨hpair, ⟨blocks, hflat, hblen, ?_⟩, ?_⟩
  · intro j hj
    obtain ⟨h1, h2, h3⟩ := hbspec j hj
    refine ⟨h1, h2, ?_⟩
    intro r hr
    rw [h3 r hr]
    simp
  · intro r hr
    have hmem : r.loan_id ∈ (List.range L).map Int.ofNat :=
      hperm.subset (List.mem_append.mpr (Or.inl (List.mem_map_of_mem _ hr)))
    exact mem_rangePool L _ hmem

/-! ### Claim C6 -/

/-- C6: the batch generators use the inclusive range `0..n` (they return
`n + 1` records with ids `0..n` in increasing order), while the association
builder treats its counts as exclusive upper bounds (customer ids in
`0..num_customers-1`, with every such id present, and loan ids drawn from the
pool `0..num_loans-1`). -/
theorem generator_count_conventions (n : ℕ) (cod : ℕ → CustDraws) (now : ℤ)
    (od : ℕ → LoanDraws) (rows : List LoanInfo) (C L : ℕ)
    (fanout : ℕ → ℕ) (pick : ℕ → ℕ → ℕ) (l : List CustomerLoan)
    (hrows : generate_loan_info_rows n now od = some rows)
    (hl : associate_loans_with_customers C L fanout pick = some l) :
    (generate_customers n cod).length = n + 1 ∧
      (generate_customers n cod).map Customer.customer_id =
        (List.range (n + 1)).map Int.ofNat ∧
      rows.length = n + 1 ∧
      rows.map LoanInfo.loan_id = (List.range (n + 1)).map Int.ofNat ∧
      (∀ r ∈ l, 0 ≤ r.customer_id ∧ r.customer_id < (C : ℤ) ∧
        0 ≤ r.loan_id ∧ r.loan_id < (L : ℤ)) ∧
      ∀ i : ℕ, i < C → ∃ r ∈ l, r.customer_id = (i : ℤ) := by
  obtain ⟨rest, ha⟩ := associate_eq_some C L fanout pick l hl
  obtain ⟨hperm, _, hbound, _, blocks, hflat, hblen, hbspec⟩ :=
    assocAux_eq_some fanout pick C 0 _ l rest ha
  obtain ⟨hcl, hcm⟩ := generate_customers_spec n cod
  obtain ⟨hrl, hrm⟩ := generate_loan_info_rows_spec n now od rows hrows
  refine ⟨hcl, hcm, hrl, hrm, ?_, ?_⟩
  · intro r hr
    obtain ⟨h1, h2⟩ := hbound r hr
    have h1b : (0 : ℤ) ≤ r.customer_id := by simpa using h1
    have h2b : r.customer_id < (C : ℤ) := by simpa using h2
    have hmem : r.loan_id ∈ (List.range L).map Int.ofNat :=
      hperm.subset (List.mem_append.mpr (Or.inl (List.mem_map_of_mem _ hr)))
    obtain ⟨h3, h4⟩ := mem_rangePool L _ hmem
    exact ⟨h1b, h2b, h3, h4⟩
  · intro i hi
    obtain ⟨hb1, hb2, hb3⟩ := hbspec i hi
    have hne : blocks.getD i [] ≠ [] := by
      intro hnil
      rw [hnil] at hb1
      simp at hb1
    obtain ⟨r, hrmem⟩ := List.exists_mem_of_ne_nil _ hne
    refine ⟨r, ?_, ?_⟩
    · rw [hflat]
      refine List.mem_flatten.mpr ⟨blocks.getD i [], ?_, hrmem⟩
      have hilen : i < blocks.length := by omega
      rw [List.getD_eq_getElem _ _ hilen]
      exact List.getElem_mem hilen
    · rw [hb3 r hrmem]
      simp

/-! ### Concrete association inputs used to witness the theorems -/

/-- Fan-out oracle that always selects the first element (fan-out 1). -/
def zeroFanout : ℕ → ℕ := fun _ => 0

/-- Pick oracle that always pops position 0 of the pool. -/
def zeroPick : ℕ → ℕ → ℕ := fun _ _ => 0

/-- The association list for 1 customer over a 2-loan pool. -/
def assocOne : List CustomerLoan :=
  (associate_loans_with_customers 1 2 zeroFanout zeroPick).get (by decide)

/-- The association list for 2 customers over a 3-loan pool. -/
def assocTwo : List CustomerLoan :=
  (associate_loans_with_customers 2 3 zeroFanout zeroPick).get (by decide)

/-- The loan-info batch of size `0 + 1` built from the all-zero draws. -/
def rowsOne : List LoanInfo :=
  (generate_loan_info_rows 0 bigNow (fun _ => zeroLoanDraws)).get (by decide)

/-- Witness for C4: with 2 customers demanding one loan each and a 1-loan
pool, the theorem applies and the builder raises. -/
theorem assoc_exhaustion_raises_witness :
    1 < ((List.range 2).map (fun i => chooseLoansPerCustomer (zeroFanout i))).sum ∧
      associate_loans_with_customers 2 1 zeroFanout zeroPick = none :=
  ⟨by decide, assoc_exhaustion_raises 2 1 zeroFanout zeroPick (by decide)⟩

/-- Witness for C5: the theorem applied to the 1-customer, 2-loan instance. -/
theorem assoc_unique_loans_witness :
    associate_loans_with_customers 1 2 zeroFanout zeroPick = some assocOne ∧
      (assocOne.map CustomerLoan.loan_id).Nodup ∧
      assocOne.length =
        ((List.range 1).map (fun i => chooseLoansPerCustomer (zeroFanout i))).sum ∧
      assocOne.length ≤ 2 := by
  have hsome : associate_loans_with_customers 1 2 zeroFanout zeroPick = some assocOne :=
    (Option.some_get (by decide)).symm
  exact ⟨hsome, assoc_unique_loans 1 2 zeroFanout zeroPick assocOne hsome⟩

/-- Witness for C10: the theorem applied to the 2-customer, 3-loan instance. -/
theorem assoc_grouped_ordered_witness :
    associate_loans_with_customers 2 3 zeroFanout zeroPick = some assocTwo ∧
      List.Pairwise (fun a b => a.customer_id ≤ b.customer_id) assocTwo ∧
      (∃ blocks : List (List CustomerLoan), assocTwo = blocks.flatten ∧
        blocks.length = 2 ∧
        ∀ j, j < 2 → 1 ≤ (blocks.getD j []).length ∧ (blocks.getD j []).length ≤ 5 ∧
          ∀ r ∈ blocks.getD j [], r.customer_id = (j : ℤ)) ∧
      ∀ r ∈ assocTwo, 0 ≤ r.loan_id ∧ r.loan_id < ((3 : ℕ) : ℤ) := by
  have hsome : associate_loans_with_customers 2 3 zeroFanout zeroPick = some assocTwo :=
    (Option.some_get (by decide)).symm
  obtain ⟨h1, h2, h3⟩ := assoc_grouped_ordered 2 3 zeroFanout zeroPick assocTwo hsome
  exact ⟨hsome, h1, h2, h3⟩

/-- Witness for C6: the theorem applied to the size-0 batches and the
1-customer, 2-loan association instance. -/
theorem generator_count_conventions_witness :
    generate_loan_info_rows 0 bigNow (fun _ => zeroLoanDraws) = some rowsOne ∧
      associate_loans_with_customers 1 2 zeroFanout zeroPick = some assocOne ∧
      (generate_customers 0 (fun _ => zeroCustDraws)).length = 0 + 1 ∧
      rowsOne.length = 0 + 1 ∧
      rowsOne.map LoanInfo.loan_id = (List.range (0 + 1)).map Int.ofNat := by
  have h1 : generate_loan_info_rows 0 bigNow (fun _ => zeroLoanDraws) = some rowsOne :=
    (Option.some_get (by decide)).symm
  have h2 : associate_loans_with_customers 1 2 zeroFanout zeroPick = some assocOne :=
    (Option.some_get (by decide)).symm
  have h3 := generator_count_conventions 0 (fun _ => zeroCustDraws) bigNow
    (fun _ => zeroLoanDraws) rowsOne 1 2 zeroFanout zeroPick assocOne h1 h2
  exact ⟨h1, h2, h3.1, h3.2.2.1, h3.2.2.2.1⟩

/-! ### Claim C7 -/

/-- C7 amended: for every successful `generate_all` run, each `loan_id` of the
`loan_customer_lookup` table appears among the `loan_id`s of `loan_info`, but
the two sets are never equal: `loan_info` always contains `loan_id = 500`
(ids run 0..500 inclusive) while the association pool is `range(500)`
(0..499), so id 500 never appears in the lookup. -/
theorem generate_all_lookup_subset_strict (now : ℤ) (custD : ℕ → CustDraws)
    (loanD : ℕ → LoanDraws) (lenderD : ℕ → String)
    (fanout : ℕ → ℕ) (pick : ℕ → ℕ → ℕ) (p : Payload)
    (h : generate_all now custD loanD lenderD fanout pick = some p) :
    (∀ x ∈ p.loan_customer_lookup.map CustomerLoan.loan_id,
        x ∈ p.loan_info.map LoanInfo.loan_id) ∧
      (500 : ℤ) ∈ p.loan_info.map LoanInfo.loan_id ∧
      (500 : ℤ) ∉ p.loan_customer_lookup.map CustomerLoan.loan_id := by
  unfold generate_all at h
  cases hrows : generate_loan_info_rows DEFAULT_LOANS_MAX_NUMBER now loanD with
  | none => rw [hrows] at h; exact absurd h (by simp)
  | some rows =>
    rw [hrows, Option.some_bind] at h
    cases hl : associate_loans_with_customers DEFAULT_CUSTOMER_NUMBER
        DEFAULT_LOANS_MAX_NUMBER fanout pick with
    | none => rw [hl] at h; exact absurd h (by simp)
    | some l =>
      rw [hl, Option.some_bind] at h
      have hp := Option.some.inj h
      have hinfo : p.loan_info = rows := by rw [← hp]
      have hlook : p.loan_customer_lookup = l := by rw [← hp]
      obtain ⟨_, hids⟩ :=
        generate_loan_info_rows_spec DEFAULT_LOANS_MAX_NUMBER now loanD rows hrows
      obtain ⟨rest, ha⟩ :=
        associate_eq_some DEFAULT_CUSTOMER_NUMBER DEFAULT_LOANS_MAX_NUMBER fanout pick l hl
      obtain ⟨hperm, _, _, _, _⟩ :=
        assocAux_eq_some fanout pick DEFAULT_CUSTOMER_NUMBER 0 _ l rest ha
      have hsub : ∀ x ∈ l.map CustomerLoan.loan_id,
          x ∈ (List.range DEFAULT_LOANS_MAX_NUMBER).map Int.ofNat :=
        fun x hx => hperm.subset (List.mem_append.mpr (Or.inl hx))
      rw [hinfo, hlook, hids]
      refine ⟨?_, ?_, ?_⟩
      · intro x hx
        obtain ⟨i, hi, rfl⟩ := List.mem_map.mp (hsub x hx)
        rw [List.mem_range] at hi
        exact List.mem_map.mpr ⟨i, List.mem_range.mpr (by omega), rfl⟩
      · refine List.mem_map.mpr ⟨500, List.mem_range.mpr ?_, rfl⟩
        norm_num [DEFAULT_LOANS_MAX_NUMBER, DEFAULT_CUSTOMER_NUMBER]
      · intro hmem
        obtain ⟨i, hi, hcast⟩ := List.mem_map.mp (hsub 500 hmem)
        rw [List.mem_range] at hi
        simp only [Int.ofNat_eq_natCast] at hcast
        norm_num [DEFAULT_LOANS_MAX_NUMBER, DEFAULT_CUSTOMER_NUMBER] at hi
        omega

/-- Constant-customer-draw oracle for the default run. -/
def oracleCust : ℕ → CustDraws := fun _ => zeroCustDraws

/-- Constant-loan-draw oracle for the default run. -/
def oracleLoan : ℕ → LoanDraws := fun _ => zeroLoanDraws

/-- Constant company-name oracle for the default run. -/
def oracleLender : ℕ → String := fun _ => "co"

set_option maxRecDepth 100000 in
/-- The payload of a concrete successful default `generate_all` run. -/
def defaultPayload : Payload :=
  (generate_all bigNow oracleCust oracleLoan oracleLender zeroFanout zeroPick).get
    (by decide)

set_option maxRecDepth 100000 in
/-- C7 counterexample: on a concrete successful default run the set of
`loan_id`s of `loan_customer_lookup` is NOT equal to the set of `loan_id`s of
`loan_info`: `loan_info` holds ids 0..500 while the lookup can only ever hold
ids below 500. -/
theorem generate_all_ids_equality_cex :
    generate_all bigNow oracleCust oracleLoan oracleLender zeroFanout zeroPick =
        some defaultPayload ∧
      ¬ (∀ x : ℤ, x ∈ defaultPayload.loan_customer_lookup.map CustomerLoan.loan_id ↔
          x ∈ defaultPayload.loan_info.map LoanInfo.loan_id) := by
  refine ⟨(Option.some_get (by decide)).symm, ?_⟩
  intro hiff
  have h1 : (500 : ℤ) ∈ defaultPayload.loan_info.map LoanInfo.loan_id := by decide
  have h2 : (500 : ℤ) ∉ defaultPayload.loan_customer_lookup.map CustomerLoan.loan_id := by
    decide
  exact h2 ((hiff 500).mpr h1)

set_option maxRecDepth 100000 in
/-- Witness for the amended C7: the theorem applied to the concrete default
run. -/
theorem generate_all_lookup_subset_strict_witness :
    generate_all bigNow oracleCust oracleLoan oracleLender zeroFanout zeroPick =
        some defaultPayload ∧
      (500 : ℤ) ∈ defaultPayload.loan_info.map LoanInfo.loan_id ∧
      (500 : ℤ) ∉ defaultPayload.loan_customer_lookup.map CustomerLoan.loan_id := by
  have hsome : generate_all bigNow oracleCust oracleLoan oracleLender zeroFanout
      zeroPick = some defaultPayload := (Option.some_get (by decide)).symm
  have h := generate_all_lookup_subset_strict bigNow oracleCust oracleLoan oracleLender
    zeroFanout zeroPick defaultPayload hsome
  exact ⟨hsome, h.2.1, h.2.2⟩

end DataGen
